import Mathlib

/-!
Shallow embedding of `turing_simulator.py`: a single-tape deterministic
Turing machine interpreter (sparse `Tape`, `TransitionFunction`,
`TuringMachine` with `load_input` / `step` / `run`), plus the bundled
recognizer `create_on1n_machine` for the language 0^n 1^n.

Python's mutable objects are passed as explicit state: every mutating
method returns the updated value.  Fallible methods (those that can raise)
return `Except TMError _`.  Symbols are `Char` (the source only ever uses
one-character strings as symbols), states and move directions are `String`,
tape positions are `Int`.
-/

/-- Errors that the Python code can raise during the modelled operations:
the `ValueError` of `load_input` (invalid symbol), the `ValueError` of
`run` (no input loaded), and the `AttributeError` that a method raises
when it dereferences `self.tape` while it is still `None`. -/
inductive TMError where
  | invalidInput
  | notInitialized
  | attributeError
deriving DecidableEq, Repr

/-- Execution statuses: `step` returns `accept` / `reject` / `cont`
(Python strings 'accept', 'reject', 'continue'); `run` can additionally
return `loop` when the step budget is exhausted. -/
inductive Status where
  | accept
  | reject
  | cont
  | loop
deriving DecidableEq, Repr

/-- Association-list lookup, modelling `dict.get` on the sparse tape
content keyed by integer positions. -/
def lookupPos : List (Int × Char) → Int → Option Char
  | [], _ => none
  | (k, v) :: rest, p => if k = p then some v else lookupPos rest p

/-- Membership test, modelling `pos in dict`. -/
def containsPos (l : List (Int × Char)) (p : Int) : Bool :=
  (lookupPos l p).isSome

/-- Association-list insert-or-replace, modelling `dict[pos] = sym`
(Python dicts keep insertion order; a fresh key goes to the end). -/
def insertPos : List (Int × Char) → Int → Char → List (Int × Char)
  | [], p, c => [(p, c)]
  | (k, v) :: rest, p, c =>
    if k = p then (k, c) :: rest else (k, v) :: insertPos rest p c

/-- The sparse, unbounded, bidirectional tape (`class Tape`): a finite
position → symbol map, the blank symbol, and the head position. -/
structure Tape where
  content : List (Int × Char)
  blank : Char
  head : Int
deriving DecidableEq, Repr

/-- Python `Tape.__init__`: seed `content[i] = sym` for each character of the
initial string (the `if initial_content:` guard in the source only skips
an empty loop, so it is behaviourally a no-op). -/
def seedContent (l : List Char) : List (Int × Char) :=
  l.enum.map (fun p => ((p.1 : Int), p.2))

/-- Python `Tape(initial_content, blank)`: head at 0, content seeded from the
string at positions 0..len-1. -/
def Tape.init (initial_content : List Char) (blank : Char) : Tape :=
  { content := seedContent initial_content, blank := blank, head := 0 }

/-- Python `Tape.read`: `self.content.get(self.head, self.blank)`. -/
def Tape.read (t : Tape) : Char :=
  (lookupPos t.content t.head).getD t.blank

/-- Python `Tape.write`: when the symbol is the blank and the head position is
unset, nothing happens (the `del` in the source sits under a condition
that contradicts the outer guard, so it is dead code); otherwise the
position is set, blank or not. -/
def Tape.write (t : Tape) (sym : Char) : Tape :=
  if sym = t.blank ∧ containsPos t.content t.head = false then t
  else { t with content := insertPos t.content t.head sym }

/-- Python `Tape.move`: 'R' increments the head, 'L' decrements it, anything
else (the source uses 'N') leaves it. -/
def Tape.move (t : Tape) (direction : String) : Tape :=
  if direction = "R" then { t with head := t.head + 1 }
  else if direction = "L" then { t with head := t.head - 1 }
  else t

/-- Minimum of a nonempty list given as head and tail, modelling Python
`min(positions)`. -/
def foldMin (x : Int) (xs : List Int) : Int :=
  xs.foldl min x

/-- Maximum of a nonempty list given as head and tail, modelling Python
`max(positions)`. -/
def foldMax (x : Int) (xs : List Int) : Int :=
  xs.foldl max x

/-- Python `Tape.__str__`: the bounded textual window around the head, with the
head cell bracketed and ellipses when the window is clipped.  `sorted`
followed by `min`/`max` in the source is just the minimum and maximum of
the key set. -/
def Tape.render (t : Tape) : String :=
  match t.content with
  | [] => "..." ++ String.singleton t.blank ++ "[" ++ String.singleton t.blank ++ "]..."
  | (k, _) :: rest =>
    let keys := rest.map Prod.fst
    let min_pos := foldMin k keys
    let max_pos := foldMax k keys
    let start := max (max (min_pos - 5) (t.head - 25)) (-50)
    let stop := min (min (max_pos + 5) (t.head + 25)) 50
    let body := String.join ((List.range (stop + 1 - start).toNat).map (fun i =>
      let pos := start + (i : Int)
      let sym := (lookupPos t.content pos).getD t.blank
      if pos = t.head then "[" ++ String.singleton sym ++ "]"
      else String.singleton sym))
    let left := if start > min_pos - 5 then "..." else ""
    let right := if stop < max_pos + 5 then "..." else ""
    left ++ body ++ right

/-- Association-list lookup for the transition dictionary keyed by
(state, symbol). -/
def lookupTrans : List ((String × Char) × (String × Char × String)) →
    String → Char → Option (String × Char × String)
  | [], _, _ => none
  | (k, v) :: rest, s, c => if k = (s, c) then some v else lookupTrans rest s c

/-- Association-list insert-or-replace for the transition dictionary. -/
def insertTrans : List ((String × Char) × (String × Char × String)) →
    (String × Char) → (String × Char × String) →
    List ((String × Char) × (String × Char × String))
  | [], k, v => [(k, v)]
  | (k0, v0) :: rest, k, v =>
    if k0 = k then (k0, v) :: rest else (k0, v0) :: insertTrans rest k v

/-- Python `class TransitionFunction`: δ stored as a dictionary
(state, symbol) → (next state, symbol to write, direction). -/
structure TransitionFunction where
  transitions : List ((String × Char) × (String × Char × String))
deriving DecidableEq, Repr

/-- Python `TransitionFunction.add`: insert or overwrite the entry. -/
def TransitionFunction.add (f : TransitionFunction) (current_state : String)
    (read_sym : Char) (next_state : String) (write_sym : Char)
    (direction : String) : TransitionFunction :=
  { transitions := insertTrans f.transitions (current_state, read_sym)
      (next_state, write_sym, direction) }

/-- Python `TransitionFunction.get`: dictionary lookup.  The current state is an
`Option` because Python initialises it to `None`; since every stored key
is a real state string, a `none` state never matches any entry. -/
def TransitionFunction.get (f : TransitionFunction) (state : Option String)
    (sym : Char) : Option (String × Char × String) :=
  match state with
  | none => none
  | some s => lookupTrans f.transitions s sym

/-- Python `class TuringMachine`: the 7-tuple plus mutable execution state.
`current_state` and `tape` are `Option` because `__init__` sets them to
`None` until `load_input` is called. -/
structure TuringMachine where
  states : List String
  input_alphabet : List Char
  tape_alphabet : List Char
  initial_state : String
  accept_states : List String
  reject_states : List String
  blank : Char
  transition_function : TransitionFunction
  current_state : Option String
  tape : Option Tape
deriving DecidableEq, Repr

/-- Python `TuringMachine.__init__`: note the reject set is always the fixed
singleton `{"q_reject"}`, regardless of the caller's arguments, and no
validation at all is performed on the supplied sets. -/
def TuringMachine.init (states : List String) (input_alphabet : List Char)
    (tape_alphabet : List Char) (initial_state : String)
    (accept_states : List String) (blank : Char) : TuringMachine :=
  { states := states
    input_alphabet := input_alphabet
    tape_alphabet := tape_alphabet
    initial_state := initial_state
    accept_states := accept_states
    reject_states := ["q_reject"]
    blank := blank
    transition_function := { transitions := [] }
    current_state := none
    tape := none }

/-- Python `TuringMachine.add_transition`: delegate to the transition table. -/
def TuringMachine.add_transition (tm : TuringMachine) (current : String)
    (read : Char) (next_s : String) (write : Char) (dir : String) :
    TuringMachine :=
  { tm with transition_function :=
      tm.transition_function.add current read next_s write dir }

/-- Membership of the (possibly `None`) current state in a list of state
strings, modelling Python `self.current_state in self.accept_states`:
`None` is never an element of a list of strings. -/
def memOpt (x : Option String) (l : List String) : Bool :=
  match x with
  | none => false
  | some s => l.contains s

/-- Python `TuringMachine.load_input`: raise `ValueError` when some character is
outside `input_alphabet + [blank]` (note the blank is accepted!);
otherwise replace the tape by a fresh seeded one and reset the current
state to the start state. -/
def TuringMachine.load_input (tm : TuringMachine) (input_str : List Char) :
    Except TMError TuringMachine :=
  if input_str.any (fun c => !((tm.input_alphabet ++ [tm.blank]).contains c)) then
    Except.error TMError.invalidInput
  else
    Except.ok { tm with
      tape := some (Tape.init input_str tm.blank)
      current_state := some tm.initial_state }

/-- Python `TuringMachine.step`: accept-state check, reject-state check, then
transition lookup on the symbol under the head; a missing transition is
an implicit rejection.  Reading the tape while it is still `None`
(machine never loaded) raises `AttributeError` in Python, modelled by
`Except.error TMError.attributeError`. -/
def TuringMachine.step (tm : TuringMachine) :
    Except TMError (Status × TuringMachine) :=
  if memOpt tm.current_state tm.accept_states then
    Except.ok (Status.accept, tm)
  else if memOpt tm.current_state tm.reject_states then
    Except.ok (Status.reject, tm)
  else
    match tm.tape with
    | none => Except.error TMError.attributeError
    | some tp =>
      match tm.transition_function.get tm.current_state tp.read with
      | none => Except.ok (Status.reject, tm)
      | some (next_state, write_sym, direction) =>
        Except.ok (Status.cont,
          { tm with
            tape := some ((tp.write write_sym).move direction)
            current_state := some next_state })

/-- One recorded configuration, the dict built by `get_config`:
`{'estado': current_state, 'cinta': str(tape), 'cabezal': tape.head}`. -/
structure Config where
  estado : Option String
  cinta : String
  cabezal : Int
deriving DecidableEq, Repr

/-- Python `TuringMachine.get_config`: `none` models the `AttributeError` that
`self.tape.head` raises when no tape is loaded. -/
def TuringMachine.get_config (tm : TuringMachine) : Option Config :=
  match tm.tape with
  | none => none
  | some tp => some { estado := tm.current_state, cinta := tp.render, cabezal := tp.head }

/-- The `while steps < max_steps` loop of `TuringMachine.run`, recursing
on the remaining budget (`fuel = max_steps - steps`).  Each iteration
records the configuration, optionally emits a trace line (the
`print`/`input` pair of `step_by_step` mode, modelled as the returned
side-channel list of (step number, configuration) pairs), then calls
`step`.  The returned tuple is (status, history, final machine, trace
output, number of `step` calls); the last two components make the
side-channel and the step counter of the loop explicit. -/
def TuringMachine.runAux (tm : TuringMachine) (steps : Nat)
    (step_by_step : Bool) (fuel : Nat) :
    Except TMError (Status × List Config × TuringMachine × List (Nat × Config) × Nat) :=
  match fuel with
  | 0 => Except.ok (Status.loop, [], tm, [], 0)
  | fuel + 1 =>
    match tm.get_config with
    | none => Except.error TMError.attributeError
    | some config =>
      match tm.step with
      | Except.error e => Except.error e
      | Except.ok (result, tm1) =>
        if result = Status.cont then
          match tm1.runAux (steps + 1) step_by_step fuel with
          | Except.error e => Except.error e
          | Except.ok (st, hist, tmf, tr, n) =>
            Except.ok (st, config :: hist, tmf,
              (if step_by_step then [(steps + 1, config)] else []) ++ tr, n + 1)
        else
          match tm1.get_config with
          | none => Except.error TMError.attributeError
          | some final =>
            Except.ok (result, [config, final], tm1,
              (if step_by_step then [(steps + 1, config)] else []), 1)

/-- Python `TuringMachine.run`: raise `ValueError` when no tape is loaded (a
`Tape` object is always truthy, so `not self.tape` is exactly `tape is
None`), then run the budgeted loop. -/
def TuringMachine.run (tm : TuringMachine) (max_steps : Nat)
    (step_by_step : Bool) :
    Except TMError (Status × List Config × TuringMachine × List (Nat × Config) × Nat) :=
  match tm.tape with
  | none => Except.error TMError.notInitialized
  | some _ => tm.runAux 0 step_by_step max_steps

/-- Python `create_on1n_machine`: the bundled strict recognizer for
L = 0^n 1^n, exactly the states, alphabets and transitions of the
source. -/
def create_on1n_machine : TuringMachine :=
  TuringMachine.init
    ["q0", "q1", "q2", "q3", "q_accept", "q_reject"]
    ['0', '1'] ['0', '1', 'X', 'Y', '_'] "q0" ["q_accept"] '_'
  |>.add_transition "q0" '_' "q3" '_' "R"
  |>.add_transition "q0" '0' "q1" 'X' "R"
  |>.add_transition "q0" '1' "q_reject" '1' "N"
  |>.add_transition "q0" 'X' "q0" 'X' "R"
  |>.add_transition "q0" 'Y' "q3" 'Y' "R"
  |>.add_transition "q1" '0' "q1" '0' "R"
  |>.add_transition "q1" '1' "q2" 'Y' "L"
  |>.add_transition "q1" 'X' "q1" 'X' "R"
  |>.add_transition "q1" 'Y' "q1" 'Y' "R"
  |>.add_transition "q1" '_' "q_reject" '_' "N"
  |>.add_transition "q2" '_' "q0" '_' "R"
  |>.add_transition "q2" '0' "q2" '0' "L"
  |>.add_transition "q2" '1' "q2" '1' "L"
  |>.add_transition "q2" 'X' "q2" 'X' "L"
  |>.add_transition "q2" 'Y' "q2" 'Y' "L"
  |>.add_transition "q3" 'X' "q3" 'X' "R"
  |>.add_transition "q3" 'Y' "q3" 'Y' "R"
  |>.add_transition "q3" '0' "q_reject" '0' "N"
  |>.add_transition "q3" '1' "q_reject" '1' "N"
  |>.add_transition "q3" '_' "q_accept" '_' "N"

/-- End-to-end status of the bundled machine on an input string: load it,
run with a budget of 1000 steps, trace off; `none` if anything raised. -/
def on1n_result (s : String) : Option Status :=
  match create_on1n_machine.load_input s.toList with
  | Except.error _ => none
  | Except.ok tm =>
    match tm.run 1000 false with
    | Except.error _ => none
    | Except.ok (st, _, _, _, _) => some st

deriving instance DecidableEq for Except

/-- The bundled machine right after loading an input string, used as a
concrete execution state (the fallback branch is never taken for the
inputs used here, which are all over the input alphabet). -/
def loadedOn (s : String) : TuringMachine :=
  match create_on1n_machine.load_input s.toList with
  | Except.ok tm => tm
  | Except.error _ => create_on1n_machine

/-- A minimal freshly-constructed machine on which `load_input` was never
called: its tape and current state are still `None`. -/
def freshMachine : TuringMachine :=
  TuringMachine.init ["a"] ['0'] ['0', '_'] "a" [] '_'

/-- A minimal machine with an empty transition table and no accept
states, loaded with the empty input: a concrete state in which no
transition matches the current (state, symbol). -/
def stuckMachine : TuringMachine :=
  match freshMachine.load_input [] with
  | Except.ok tm => tm
  | Except.error _ => freshMachine

/-- A minimal machine whose start state is accepting, loaded with the
empty input: a concrete state in which the accept check fires. -/
def acceptingMachine : TuringMachine :=
  match (TuringMachine.init ["a"] ['0'] ['0', '_'] "a" ["a"] '_').load_input [] with
  | Except.ok tm => tm
  | Except.error _ => TuringMachine.init ["a"] ['0'] ['0', '_'] "a" ["a"] '_'

/-- Forget the trace side-channel of a `run` result, keeping the status,
the history, the final machine and the step count. -/
def dropTrace (r : Status × List Config × TuringMachine × List (Nat × Config) × Nat) :
    Status × List Config × TuringMachine × Nat :=
  (r.1, r.2.1, r.2.2.1, r.2.2.2.2)

/-- The accept set and the reject set have no common element. -/
def disjointAR (tm : TuringMachine) : Prop :=
  ∀ s ∈ tm.accept_states, s ∉ tm.reject_states

/-! Helper lemmas: how `step` behaves in each of its four branches, and
how one iteration of the `run` loop unfolds. -/

theorem step_accept (tm : TuringMachine)
    (h : memOpt tm.current_state tm.accept_states = true) :
    tm.step = Except.ok (Status.accept, tm) := by
  simp [TuringMachine.step, h]

theorem step_reject_state (tm : TuringMachine)
    (h1 : memOpt tm.current_state tm.accept_states = false)
    (h2 : memOpt tm.current_state tm.reject_states = true) :
    tm.step = Except.ok (Status.reject, tm) := by
  simp [TuringMachine.step, h1, h2]

theorem step_no_transition (tm : TuringMachine) (tp : Tape)
    (h : tm.tape = some tp)
    (h1 : memOpt tm.current_state tm.accept_states = false)
    (h2 : memOpt tm.current_state tm.reject_states = false)
    (h3 : tm.transition_function.get tm.current_state tp.read = none) :
    tm.step = Except.ok (Status.reject, tm) := by
  simp [TuringMachine.step, h, h1, h2, h3]

theorem step_transition (tm : TuringMachine) (tp : Tape) (ns : String)
    (ws : Char) (d : String)
    (h : tm.tape = some tp)
    (h1 : memOpt tm.current_state tm.accept_states = false)
    (h2 : memOpt tm.current_state tm.reject_states = false)
    (h3 : tm.transition_function.get tm.current_state tp.read = some (ns, ws, d)) :
    tm.step = Except.ok (Status.cont,
      { tm with tape := some ((tp.write ws).move d), current_state := some ns }) := by
  simp [TuringMachine.step, h, h1, h2, h3]

theorem step_of_tape_some (tm : TuringMachine) (tp : Tape) (h : tm.tape = some tp) :
    ∃ r tm1 tp1, tm.step = Except.ok (r, tm1) ∧ tm1.tape = some tp1 ∧
      tm1.accept_states = tm.accept_states ∧ tm1.reject_states = tm.reject_states ∧
      r ≠ Status.loop := by
  by_cases h1 : memOpt tm.current_state tm.accept_states = true
  · exact ⟨Status.accept, tm, tp, step_accept tm h1, h, rfl, rfl, by decide⟩
  · rw [Bool.not_eq_true] at h1
    by_cases h2 : memOpt tm.current_state tm.reject_states = true
    · exact ⟨Status.reject, tm, tp, step_reject_state tm h1 h2, h, rfl, rfl, by decide⟩
    · rw [Bool.not_eq_true] at h2
      cases htr : tm.transition_function.get tm.current_state tp.read with
      | none =>
        exact ⟨Status.reject, tm, tp, step_no_transition tm tp h h1 h2 htr, h, rfl, rfl, by decide⟩
      | some t =>
        obtain ⟨ns, ws, d⟩ := t
        exact ⟨Status.cont, _, _, step_transition tm tp ns ws d h h1 h2 htr, rfl, rfl, rfl, by decide⟩

theorem step_terminal_id (tm tm1 : TuringMachine) (r : Status)
    (h : tm.step = Except.ok (r, tm1)) (hr : r ≠ Status.cont) : tm1 = tm := by
  by_cases h1 : memOpt tm.current_state tm.accept_states = true
  · rw [step_accept tm h1] at h
    simp only [Except.ok.injEq, Prod.mk.injEq] at h
    exact h.2.symm
  · rw [Bool.not_eq_true] at h1
    by_cases h2 : memOpt tm.current_state tm.reject_states = true
    · rw [step_reject_state tm h1 h2] at h
      simp only [Except.ok.injEq, Prod.mk.injEq] at h
      exact h.2.symm
    · rw [Bool.not_eq_true] at h2
      cases htp : tm.tape with
      | none => simp [TuringMachine.step, h1, h2, htp] at h
      | some tp =>
        cases htr : tm.transition_function.get tm.current_state tp.read with
        | none =>
          rw [step_no_transition tm tp htp h1 h2 htr] at h
          simp only [Except.ok.injEq, Prod.mk.injEq] at h
          exact h.2.symm
        | some t =>
          obtain ⟨ns, ws, d⟩ := t
          rw [step_transition tm tp ns ws d htp h1 h2 htr] at h
          simp only [Except.ok.injEq, Prod.mk.injEq] at h
          exact absurd h.1.symm hr

theorem get_config_tape_some (tm : TuringMachine) (tp : Tape) (h : tm.tape = some tp) :
    tm.get_config = some { estado := tm.current_state, cinta := tp.render, cabezal := tp.head } := by
  simp [TuringMachine.get_config, h]

theorem runAux_zero (tm : TuringMachine) (steps : Nat) (b : Bool) :
    tm.runAux steps b 0 = Except.ok (Status.loop, [], tm, [], 0) := rfl

theorem runAux_succ (tm : TuringMachine) (steps : Nat) (b : Bool) (f : Nat) :
    tm.runAux steps b (f + 1) =
      match tm.get_config with
      | none => Except.error TMError.attributeError
      | some config =>
        match tm.step with
        | Except.error e => Except.error e
        | Except.ok (result, tm1) =>
          if result = Status.cont then
            match tm1.runAux (steps + 1) b f with
            | Except.error e => Except.error e
            | Except.ok (st, hist, tmf, tr, n) =>
              Except.ok (st, config :: hist, tmf,
                (if b then [(steps + 1, config)] else []) ++ tr, n + 1)
          else
            match tm1.get_config with
            | none => Except.error TMError.attributeError
            | some final =>
              Except.ok (result, [config, final], tm1,
                (if b then [(steps + 1, config)] else []), 1) := rfl

theorem runAux_no_config (tm : TuringMachine) (steps f : Nat) (b : Bool)
    (hc : tm.get_config = none) :
    tm.runAux steps b (f + 1) = Except.error TMError.attributeError := by
  rw [runAux_succ, hc]

theorem runAux_step_error (tm : TuringMachine) (config : Config)
    (steps f : Nat) (b : Bool) (e : TMError)
    (hc : tm.get_config = some config) (hs : tm.step = Except.error e) :
    tm.runAux steps b (f + 1) = Except.error e := by
  rw [runAux_succ]
  simp only [hc, hs]

theorem runAux_cont_ok (tm tm1 tmf : TuringMachine) (config : Config)
    (steps f : Nat) (b : Bool) (st : Status) (hist : List Config)
    (tr : List (Nat × Config)) (n : Nat)
    (hc : tm.get_config = some config)
    (hs : tm.step = Except.ok (Status.cont, tm1))
    (hinner : tm1.runAux (steps + 1) b f = Except.ok (st, hist, tmf, tr, n)) :
    tm.runAux steps b (f + 1) =
      Except.ok (st, config :: hist, tmf,
        (if b then [(steps + 1, config)] else []) ++ tr, n + 1) := by
  rw [runAux_succ]
  simp only [hc, hs, hinner, if_pos rfl, if_true]

theorem runAux_cont_error (tm tm1 : TuringMachine) (config : Config)
    (steps f : Nat) (b : Bool) (e : TMError)
    (hc : tm.get_config = some config)
    (hs : tm.step = Except.ok (Status.cont, tm1))
    (hinner : tm1.runAux (steps + 1) b f = Except.error e) :
    tm.runAux steps b (f + 1) = Except.error e := by
  rw [runAux_succ]
  simp only [hc, hs, hinner, if_pos rfl, if_true]

theorem runAux_halt (tm tm1 : TuringMachine) (config final : Config)
    (steps f : Nat) (b : Bool) (r : Status)
    (hc : tm.get_config = some config)
    (hs : tm.step = Except.ok (r, tm1))
    (hr : r ≠ Status.cont)
    (hf : tm1.get_config = some final) :
    tm.runAux steps b (f + 1) =
      Except.ok (r, [config, final], tm1,
        (if b then [(steps + 1, config)] else []), 1) := by
  rw [runAux_succ]
  simp only [hc, hs, hf, if_neg hr]

theorem runAux_halt_no_config (tm tm1 : TuringMachine) (config : Config)
    (steps f : Nat) (b : Bool) (r : Status)
    (hc : tm.get_config = some config)
    (hs : tm.step = Except.ok (r, tm1))
    (hr : r ≠ Status.cont)
    (hf : tm1.get_config = none) :
    tm.runAux steps b (f + 1) = Except.error TMError.attributeError := by
  rw [runAux_succ]
  simp only [hc, hs, hf, if_neg hr]

/-! Claim theorems. -/

/-- C1: for the bundled recognizer, after `load_input` and `run` with a
budget of 1000 steps, the status is accept for "", "01", "0011" and
reject for "001", "1100", "0101". -/
theorem C1_on1n_verdicts :
    on1n_result "" = some Status.accept ∧
    on1n_result "01" = some Status.accept ∧
    on1n_result "0011" = some Status.accept ∧
    on1n_result "001" = some Status.reject ∧
    on1n_result "1100" = some Status.reject ∧
    on1n_result "0101" = some Status.reject :=
  ⟨rfl, rfl, rfl, rfl, rfl, rfl⟩

/-- C2 (counterexample): `load_input` does not raise on every character
outside the input alphabet — the blank symbol is outside the bundled
machine's input alphabet `{0, 1}`, yet the string "_" loads without
error, refuting the claimed "if and only if". -/
theorem C2_blank_loads_without_error :
    ¬ (create_on1n_machine.load_input ['_'] = Except.error TMError.invalidInput ↔
        ∃ c ∈ ['_'], c ∉ create_on1n_machine.input_alphabet) := by
  decide

/-- C2 (amended): `load_input` raises `InvalidInputSymbol` if and only if
some character of the string is outside the input alphabet extended with
the blank symbol; on success the tape is replaced by one seeded from the
string with head at 0 and the current state is reset to the start
state. -/
theorem C2_load_input_characterization (tm : TuringMachine) (s : List Char) :
    (tm.load_input s = Except.error TMError.invalidInput ↔
      ∃ c ∈ s, c ∉ tm.input_alphabet ++ [tm.blank]) ∧
    (∀ tm1, tm.load_input s = Except.ok tm1 →
      tm1.tape = some (Tape.init s tm.blank) ∧
      (Tape.init s tm.blank).head = 0 ∧
      tm1.current_state = some tm.initial_state) := by
  unfold TuringMachine.load_input
  by_cases hg : (s.any fun c => !((tm.input_alphabet ++ [tm.blank]).contains c)) = true
  · rw [if_pos hg]
    refine ⟨⟨fun _ => ?_, fun _ => rfl⟩, fun tm1 h1 => nomatch h1⟩
    simpa [List.any_eq_true] using hg
  · rw [if_neg hg]
    refine ⟨⟨(fun h1 => nomatch h1), ?_⟩, fun tm1 h1 => ?_⟩
    · intro hex
      exact absurd (by simpa [List.any_eq_true] using hex) hg
    · injection h1 with h2
      subst h2
      exact ⟨rfl, rfl, rfl⟩

/-- C2 (witness): the amended characterization applied to the bundled
machine and the input "01", which loads successfully. -/
theorem C2_load_input_characterization_witness :
    (loadedOn "01").tape = some (Tape.init "01".toList '_') ∧
    (Tape.init "01".toList '_').head = 0 ∧
    (loadedOn "01").current_state = some "q0" :=
  (C2_load_input_characterization create_on1n_machine "01".toList).2 (loadedOn "01") rfl

/-- C4: when the current state is neither accepting nor rejecting and no
transition matches (current state, symbol under the head), `step`
returns `Rejected` as a normal value and returns the machine completely
unchanged (same tape contents, head position and current state). -/
theorem C4_missing_transition_rejects (tm : TuringMachine) (tp : Tape)
    (h : tm.tape = some tp)
    (h1 : memOpt tm.current_state tm.accept_states = false)
    (h2 : memOpt tm.current_state tm.reject_states = false)
    (h3 : tm.transition_function.get tm.current_state tp.read = none) :
    tm.step = Except.ok (Status.reject, tm) :=
  step_no_transition tm tp h h1 h2 h3

/-- C4 (witness): a loaded machine with an empty transition table
rejects in place. -/
theorem C4_missing_transition_rejects_witness :
    stuckMachine.step = Except.ok (Status.reject, stuckMachine) :=
  C4_missing_transition_rejects stuckMachine (Tape.init [] '_')
    (by decide) (by decide) (by decide) (by decide)

/-- C5: when the current state is in the accept set, `step` returns
`Accepted` and returns the machine completely unchanged (same tape
contents, head position and current state). -/
theorem C5_accept_state_is_frame (tm : TuringMachine)
    (h : memOpt tm.current_state tm.accept_states = true) :
    tm.step = Except.ok (Status.accept, tm) :=
  step_accept tm h

/-- C5 (witness): a loaded machine whose start state accepts. -/
theorem C5_accept_state_is_frame_witness :
    acceptingMachine.step = Except.ok (Status.accept, acceptingMachine) :=
  C5_accept_state_is_frame acceptingMachine (by decide)

/-- C6 (counterexample): on a machine that was never loaded, `step` does
not fail with the `NotInitialized` error (it dereferences the `None`
tape and raises `AttributeError` instead), refuting the claim that both
`run` and `step` fail with `NotInitialized`. -/
theorem C6_step_not_notInitialized :
    freshMachine.step ≠ Except.error TMError.notInitialized := by
  decide

/-- C6 (amended): on a machine on which `load_input` was never called
(tape and current state still `None`), `run` fails with the
`NotInitialized` error, while `step` fails with an `AttributeError`
(attribute access on the missing tape), not with `NotInitialized`. -/
theorem C6_uninitialized_errors (tm : TuringMachine)
    (h1 : tm.tape = none) (h2 : tm.current_state = none)
    (max_steps : Nat) (b : Bool) :
    tm.run max_steps b = Except.error TMError.notInitialized ∧
    tm.step = Except.error TMError.attributeError := by
  constructor
  · simp [TuringMachine.run, h1]
  · simp [TuringMachine.step, memOpt, h1, h2]

/-- C6 (witness): the amended behaviour on a concrete fresh machine. -/
theorem C6_uninitialized_errors_witness :
    freshMachine.run 5 false = Except.error TMError.notInitialized ∧
    freshMachine.step = Except.error TMError.attributeError :=
  C6_uninitialized_errors freshMachine rfl rfl 5 false

/-- C9 (counterexample): the constructor performs no validation, so a
caller-supplied accept set containing the sentinel "q_reject" makes the
accept and reject sets overlap, refuting disjointness "regardless of the
caller-supplied accept states". -/
theorem C9_accept_reject_can_overlap :
    "q_reject" ∈ (TuringMachine.init ["q_reject"] ['0'] ['0', '_'] "q0"
      ["q_reject"] '_').accept_states ∧
    "q_reject" ∈ (TuringMachine.init ["q_reject"] ['0'] ['0', '_'] "q0"
      ["q_reject"] '_').reject_states := by
  decide

/-! The main invariant of the `run` loop, proved once by induction on the
remaining budget and reused by several claims: with a loaded tape the
loop always returns normally, calls `step` at most `fuel` times (the
last returned component counts the `step` calls), never returns the
`Continuing` status, returns `loop` exactly on budget exhaustion with
one recorded configuration per iteration, duplicates the final
configuration on a halting verdict, and never touches the accept or
reject sets. -/
theorem runAux_spec (fuel : Nat) :
    ∀ (tm : TuringMachine) (steps : Nat) (b : Bool) (tp : Tape), tm.tape = some tp →
    ∃ st hist tmf tr n,
      tm.runAux steps b fuel = Except.ok (st, hist, tmf, tr, n) ∧
      n ≤ fuel ∧ st ≠ Status.cont ∧
      (st = Status.loop → n = fuel ∧ hist.length = fuel) ∧
      ((st = Status.accept ∨ st = Status.reject) →
        1 ≤ n ∧ (∃ pre c, hist = pre ++ [c, c]) ∧ hist.length = n + 1) ∧
      tmf.accept_states = tm.accept_states ∧ tmf.reject_states = tm.reject_states := by
  induction fuel with
  | zero =>
    intro tm steps b tp h
    exact ⟨Status.loop, [], tm, [], 0, runAux_zero tm steps b, Nat.le_refl 0, (by decide),
      fun _ => ⟨rfl, rfl⟩, fun hc => absurd hc (by decide), rfl, rfl⟩
  | succ f ih =>
    intro tm steps b tp h
    have hcfg := get_config_tape_some tm tp h
    obtain ⟨r, tm1, tp1, hstep, htape1, hacc, hrej, hnl⟩ := step_of_tape_some tm tp h
    by_cases hr : r = Status.cont
    · subst hr
      obtain ⟨st, hist, tmf, tr, n, heq, hn, hst, hloop, hterm, hacc1, hrej1⟩ :=
        ih tm1 (steps + 1) b tp1 htape1
      refine ⟨st, _ :: hist, tmf, _, n + 1,
        runAux_cont_ok tm tm1 tmf _ steps f b st hist tr n hcfg hstep heq,
        Nat.succ_le_succ hn, hst, ?_, ?_, hacc1.trans hacc, hrej1.trans hrej⟩
      · intro hl
        obtain ⟨hn2, hlen⟩ := hloop hl
        exact ⟨by omega, by simp [hlen]⟩
      · intro ht
        obtain ⟨h1, ⟨pre, c, hpre⟩, hlen⟩ := hterm ht
        exact ⟨by omega,
          ⟨{ estado := tm.current_state, cinta := tp.render, cabezal := tp.head } :: pre, c,
            by rw [hpre]; rfl⟩, by simp [hlen]⟩
    · have hid : tm1 = tm := step_terminal_id tm tm1 r hstep hr
      subst hid
      refine ⟨r, [_, _], tm1, _, 1,
        runAux_halt tm1 tm1 _ _ steps f b r hcfg hstep hr hcfg,
        Nat.succ_le_succ (Nat.zero_le f), hr, fun hl => absurd hl hnl,
        fun _ => ⟨Nat.le_refl 1, ⟨[], _, rfl⟩, rfl⟩, rfl, rfl⟩

/-- Accept and reject sets are left untouched by a successful
`load_input`. -/
theorem load_input_fields (tm tm1 : TuringMachine) (s : List Char)
    (h : tm.load_input s = Except.ok tm1) :
    tm1.accept_states = tm.accept_states ∧ tm1.reject_states = tm.reject_states := by
  unfold TuringMachine.load_input at h
  by_cases hg : (s.any fun c => !((tm.input_alphabet ++ [tm.blank]).contains c)) = true
  · rw [if_pos hg] at h
    exact nomatch h
  · rw [if_neg hg] at h
    injection h with h2
    subst h2
    exact ⟨rfl, rfl⟩

/-- Accept and reject sets are left untouched by a successful `step`. -/
theorem step_fields (tm tm1 : TuringMachine) (r : Status)
    (h : tm.step = Except.ok (r, tm1)) :
    tm1.accept_states = tm.accept_states ∧ tm1.reject_states = tm.reject_states := by
  by_cases h1 : memOpt tm.current_state tm.accept_states = true
  · rw [step_accept tm h1] at h
    simp only [Except.ok.injEq, Prod.mk.injEq] at h
    rw [← h.2]
    exact ⟨rfl, rfl⟩
  · rw [Bool.not_eq_true] at h1
    by_cases h2 : memOpt tm.current_state tm.reject_states = true
    · rw [step_reject_state tm h1 h2] at h
      simp only [Except.ok.injEq, Prod.mk.injEq] at h
      rw [← h.2]
      exact ⟨rfl, rfl⟩
    · rw [Bool.not_eq_true] at h2
      cases htp : tm.tape with
      | none => simp [TuringMachine.step, h1, h2, htp] at h
      | some tp =>
        cases htr : tm.transition_function.get tm.current_state tp.read with
        | none =>
          rw [step_no_transition tm tp htp h1 h2 htr] at h
          simp only [Except.ok.injEq, Prod.mk.injEq] at h
          rw [← h.2]
          exact ⟨rfl, rfl⟩
        | some t =>
          obtain ⟨ns, ws, d⟩ := t
          rw [step_transition tm tp ns ws d htp h1 h2 htr] at h
          simp only [Except.ok.injEq, Prod.mk.injEq] at h
          rw [← h.2]
          exact ⟨rfl, rfl⟩

/-- Accept and reject sets are left untouched by a normal `run`. -/
theorem run_fields (tm tmf : TuringMachine) (max_steps : Nat) (b : Bool)
    (st : Status) (hist : List Config) (tr : List (Nat × Config)) (n : Nat)
    (h : tm.run max_steps b = Except.ok (st, hist, tmf, tr, n)) :
    tmf.accept_states = tm.accept_states ∧ tmf.reject_states = tm.reject_states := by
  unfold TuringMachine.run at h
  cases htp : tm.tape with
  | none =>
    simp only [htp] at h
    exact nomatch h
  | some tp =>
    simp only [htp] at h
    obtain ⟨st2, hist2, tmf2, tr2, n2, heq, _, _, _, _, hacc, hrej⟩ :=
      runAux_spec max_steps tm 0 b tp htp
    rw [heq] at h
    simp only [Except.ok.injEq, Prod.mk.injEq] at h
    obtain ⟨_, _, h3, _, _⟩ := h
    rw [← h3]
    exact ⟨hacc, hrej⟩

/-- C3: with a loaded tape, `run` returns normally having called `step`
at most `max_steps` times (the last component of the result counts the
`step` calls), the status is never `Continuing`, and when no step
halted within the budget the result is the `loop` status with exactly
the `max_steps` configurations accumulated so far. -/
theorem C3_run_respects_budget (tm : TuringMachine) (tp : Tape)
    (h : tm.tape = some tp) (max_steps : Nat) (b : Bool) :
    ∃ st hist tmf tr n,
      tm.run max_steps b = Except.ok (st, hist, tmf, tr, n) ∧
      n ≤ max_steps ∧ st ≠ Status.cont ∧
      (st = Status.loop → n = max_steps ∧ hist.length = max_steps) := by
  obtain ⟨st, hist, tmf, tr, n, heq, hn, hst, hloop, _, _, _⟩ :=
    runAux_spec max_steps tm 0 b tp h
  refine ⟨st, hist, tmf, tr, n, ?_, hn, hst, hloop⟩
  unfold TuringMachine.run
  rw [h]
  exact heq

/-- C3 (witness): the bundled machine loaded with "01" under a budget of
5 steps. -/
theorem C3_run_respects_budget_witness :
    ∃ st hist tmf tr n,
      (loadedOn "01").run 5 false = Except.ok (st, hist, tmf, tr, n) ∧
      n ≤ 5 ∧ st ≠ Status.cont ∧
      (st = Status.loop → n = 5 ∧ hist.length = 5) :=
  C3_run_respects_budget (loadedOn "01") (Tape.init "01".toList '_') rfl 5 false

theorem map_dropTrace_error (e : TMError) :
    (Except.error e : Except TMError
      (Status × List Config × TuringMachine × List (Nat × Config) × Nat)).map dropTrace =
    Except.error e := rfl

theorem map_dropTrace_ok
    (x : Status × List Config × TuringMachine × List (Nat × Config) × Nat) :
    (Except.ok x : Except TMError _).map dropTrace = Except.ok (dropTrace x) := rfl

/-- The loop body consults the trace flag only to build the trace
side-channel: outcome, history, final machine and step count agree
between traced and untraced executions. -/
theorem runAux_trace_free (fuel : Nat) :
    ∀ (tm : TuringMachine) (steps : Nat),
      (tm.runAux steps true fuel).map dropTrace =
      (tm.runAux steps false fuel).map dropTrace := by
  induction fuel with
  | zero => intro tm steps; rfl
  | succ f ih =>
    intro tm steps
    cases hc : tm.get_config with
    | none =>
      rw [runAux_no_config tm steps f true hc, runAux_no_config tm steps f false hc]
    | some config =>
      cases hs : tm.step with
      | error e =>
        rw [runAux_step_error tm config steps f true e hc hs,
          runAux_step_error tm config steps f false e hc hs]
      | ok p =>
        obtain ⟨r, tm1⟩ := p
        by_cases hr : r = Status.cont
        · subst hr
          have hih := ih tm1 (steps + 1)
          cases hA : tm1.runAux (steps + 1) true f with
          | error e1 =>
            cases hB : tm1.runAux (steps + 1) false f with
            | error e2 =>
              rw [hA, hB] at hih
              simp only [map_dropTrace_error] at hih
              injection hih with he
              subst he
              rw [runAux_cont_error tm tm1 config steps f true e1 hc hs hA,
                runAux_cont_error tm tm1 config steps f false e1 hc hs hB]
            | ok y =>
              rw [hA, hB] at hih
              simp only [map_dropTrace_error, map_dropTrace_ok] at hih
              exact nomatch hih
          | ok x =>
            cases hB : tm1.runAux (steps + 1) false f with
            | error e2 =>
              rw [hA, hB] at hih
              simp only [map_dropTrace_error, map_dropTrace_ok] at hih
              exact nomatch hih
            | ok y =>
              rw [hA, hB] at hih
              simp only [map_dropTrace_ok] at hih
              injection hih with hxy
              obtain ⟨st1, hist1, tmf1, tr1, n1⟩ := x
              obtain ⟨st2, hist2, tmf2, tr2, n2⟩ := y
              simp only [dropTrace, Prod.mk.injEq] at hxy
              obtain ⟨he1, he2, he3, he4⟩ := hxy
              subst he1
              subst he2
              subst he3
              subst he4
              rw [runAux_cont_ok tm tm1 tmf1 config steps f true st1 hist1 tr1 n1 hc hs hA,
                runAux_cont_ok tm tm1 tmf1 config steps f false st1 hist1 tr2 n1 hc hs hB]
              rfl
        · cases hf : tm1.get_config with
          | none =>
            rw [runAux_halt_no_config tm tm1 config steps f true r hc hs hr hf,
              runAux_halt_no_config tm tm1 config steps f false r hc hs hr hf]
          | some final =>
            rw [runAux_halt tm tm1 config final steps f true r hc hs hr hf,
              runAux_halt tm tm1 config final steps f false r hc hs hr hf]
            rfl

/-- C7: running with trace mode on and with trace mode off from the same
machine state produce the same status, the same history, the same final
machine state and the same step count — the trace flag feeds only the
side-channel that `dropTrace` discards (this also covers the unloaded
machine, where both runs raise the same error). -/
theorem C7_trace_mode_is_pure (tm : TuringMachine) (max_steps : Nat) :
    (tm.run max_steps true).map dropTrace = (tm.run max_steps false).map dropTrace := by
  unfold TuringMachine.run
  cases htp : tm.tape with
  | none => rfl
  | some tp => exact runAux_trace_free max_steps tm 0

/-- C9 (amended): the accept and reject sets are disjoint provided the
caller-supplied accept states avoid the fixed sentinel "q_reject" (the
constructor itself enforces nothing), and every operation of the
machine — `add_transition`, successful `load_input`, successful `step`,
normal `run` — leaves both sets unchanged, so the disjointness of any
machine state is preserved by every subsequent operation. -/
theorem C9_disjoint_when_caller_avoids_sentinel (states : List String)
    (ia ta : List Char) (q0 : String) (accepts : List String) (blank : Char)
    (h : "q_reject" ∉ accepts) :
    disjointAR (TuringMachine.init states ia ta q0 accepts blank) ∧
    (∀ tm : TuringMachine, disjointAR tm →
      (∀ c r n w d, disjointAR (tm.add_transition c r n w d)) ∧
      (∀ s tm1, tm.load_input s = Except.ok tm1 → disjointAR tm1) ∧
      (∀ r tm1, tm.step = Except.ok (r, tm1) → disjointAR tm1) ∧
      (∀ max_steps b st hist tmf tr n,
        tm.run max_steps b = Except.ok (st, hist, tmf, tr, n) → disjointAR tmf)) := by
  constructor
  · intro s hs hmem
    simp only [TuringMachine.init, List.mem_singleton] at hs hmem
    subst hmem
    exact h hs
  · intro tm hdis
    refine ⟨fun c r n w d => hdis, ?_, ?_, ?_⟩
    · intro s tm1 h1
      obtain ⟨ha, hr2⟩ := load_input_fields tm tm1 s h1
      intro x hx
      rw [hr2]
      exact hdis x (ha ▸ hx)
    · intro r tm1 h1
      obtain ⟨ha, hr2⟩ := step_fields tm tm1 r h1
      intro x hx
      rw [hr2]
      exact hdis x (ha ▸ hx)
    · intro max_steps b st hist tmf tr n h1
      obtain ⟨ha, hr2⟩ := run_fields tm tmf max_steps b st hist tr n h1
      intro x hx
      rw [hr2]
      exact hdis x (ha ▸ hx)

/-- C9 (witness): the amended statement at a concrete well-formed
machine whose accept set avoids the sentinel. -/
theorem C9_disjoint_when_caller_avoids_sentinel_witness :
    disjointAR (TuringMachine.init ["q0", "q_accept", "q_reject"] ['0', '1']
      ['0', '1', '_'] "q0" ["q_accept"] '_') ∧
    (∀ tm : TuringMachine, disjointAR tm →
      (∀ c r n w d, disjointAR (tm.add_transition c r n w d)) ∧
      (∀ s tm1, tm.load_input s = Except.ok tm1 → disjointAR tm1) ∧
      (∀ r tm1, tm.step = Except.ok (r, tm1) → disjointAR tm1) ∧
      (∀ max_steps b st hist tmf tr n,
        tm.run max_steps b = Except.ok (st, hist, tmf, tr, n) → disjointAR tmf)) :=
  C9_disjoint_when_caller_avoids_sentinel ["q0", "q_accept", "q_reject"] ['0', '1']
    ['0', '1', '_'] "q0" ["q_accept"] '_' (by decide)

/-- C10: every `run` that returns `Accepted` or `Rejected` ends its
history with the halting configuration recorded twice, and the history
length is the number of `Continuing` steps (all step calls but the
final halting one, that is `n - 1` of the `n` recorded step calls)
plus two. -/
theorem C10_halting_history_shape (tm : TuringMachine) (max_steps : Nat) (b : Bool)
    (st : Status) (hist : List Config) (tmf : TuringMachine)
    (tr : List (Nat × Config)) (n : Nat)
    (h : tm.run max_steps b = Except.ok (st, hist, tmf, tr, n))
    (hst : st = Status.accept ∨ st = Status.reject) :
    (∃ pre c, hist = pre ++ [c, c]) ∧ hist.length = (n - 1) + 2 := by
  unfold TuringMachine.run at h
  cases htp : tm.tape with
  | none =>
    simp only [htp] at h
    exact nomatch h
  | some tp =>
    simp only [htp] at h
    obtain ⟨st2, hist2, tmf2, tr2, n2, heq, _, _, _, hterm, _, _⟩ :=
      runAux_spec max_steps tm 0 b tp htp
    rw [heq] at h
    simp only [Except.ok.injEq, Prod.mk.injEq] at h
    obtain ⟨h1, h2, h3, h4, h5⟩ := h
    subst h1
    subst h2
    subst h5
    obtain ⟨hge, hform, hlen⟩ := hterm hst
    exact ⟨hform, by omega⟩

/-- C10 (witness): the run of the bundled machine on the empty input
accepts after 3 step calls with a 4-entry history whose last two
entries coincide. -/
theorem C10_halting_history_shape_witness :
    (∃ pre c,
      ([{ estado := some "q0", cinta := "..._[_]...", cabezal := 0 },
        { estado := some "q3", cinta := "..._[_]...", cabezal := 1 },
        { estado := some "q_accept", cinta := "..._[_]...", cabezal := 1 },
        { estado := some "q_accept", cinta := "..._[_]...", cabezal := 1 }] : List Config) =
        pre ++ [c, c]) ∧
    ([{ estado := some "q0", cinta := "..._[_]...", cabezal := 0 },
      { estado := some "q3", cinta := "..._[_]...", cabezal := 1 },
      { estado := some "q_accept", cinta := "..._[_]...", cabezal := 1 },
      { estado := some "q_accept", cinta := "..._[_]...", cabezal := 1 }] : List Config).length =
      (3 - 1) + 2 :=
  C10_halting_history_shape (loadedOn "") 1000 false Status.accept
    [{ estado := some "q0", cinta := "..._[_]...", cabezal := 0 },
     { estado := some "q3", cinta := "..._[_]...", cabezal := 1 },
     { estado := some "q_accept", cinta := "..._[_]...", cabezal := 1 },
     { estado := some "q_accept", cinta := "..._[_]...", cabezal := 1 }]
    { (loadedOn "") with
        tape := some { content := [], blank := '_', head := 1 }
        current_state := some "q_accept" }
    [] 3 rfl (Or.inl rfl)

/-- C8: a successful `load_input` puts the machine into the canonical
initial configuration — head at 0, current state equal to the start
state, tape content exactly the string's characters at positions
0..len-1 — and loading the same string again from that configuration is
a fixed point, so two consecutive loads of the same valid string
produce identical initial configurations. -/
theorem C8_load_input_idempotent (tm tm1 : TuringMachine) (s : List Char)
    (h : tm.load_input s = Except.ok tm1) :
    tm1.load_input s = Except.ok tm1 ∧
    tm1.tape = some (Tape.init s tm.blank) ∧
    (Tape.init s tm.blank).head = 0 ∧
    (Tape.init s tm.blank).content = seedContent s ∧
    tm1.current_state = some tm.initial_state := by
  have hbody : tm1 = { tm with
      tape := some (Tape.init s tm.blank)
      current_state := some tm.initial_state } ∧
      ¬ (s.any fun c => !((tm.input_alphabet ++ [tm.blank]).contains c)) = true := by
    unfold TuringMachine.load_input at h
    by_cases hg : (s.any fun c => !((tm.input_alphabet ++ [tm.blank]).contains c)) = true
    · rw [if_pos hg] at h
      exact nomatch h
    · rw [if_neg hg] at h
      injection h with h2
      exact ⟨h2.symm, hg⟩
  obtain ⟨h2, hg⟩ := hbody
  subst h2
  refine ⟨?_, rfl, rfl, rfl, rfl⟩
  unfold TuringMachine.load_input
  rw [if_neg hg]

/-- C8 (witness): loading "01" into the bundled machine and then loading
it again reproduces the same machine state. -/
theorem C8_load_input_idempotent_witness :
    (loadedOn "01").load_input "01".toList = Except.ok (loadedOn "01") ∧
    (loadedOn "01").tape = some (Tape.init "01".toList '_') ∧
    (Tape.init "01".toList '_').head = 0 ∧
    (Tape.init "01".toList '_').content = seedContent "01".toList ∧
    (loadedOn "01").current_state = some "q0" :=
  C8_load_input_idempotent create_on1n_machine (loadedOn "01") "01".toList rfl
